import Mathlib

/-!
# Verification of the naru-pub-proxy request-to-key resolution pipeline

Shallow embedding of `src/main.rs` (`handle_request`, lines 80-151).
Strings are modelled as lists of bytes (`List Nat`, each element < 256 on
real inputs); all characters the pipeline inspects (`/`, `.`, `%`, hex
digits) are ASCII, so byte-level operations coincide with Rust's
`str`-level ones.  The host header is `Option (List Nat)` (`string|absent`
per the data model); the raw path is the percent-encoded byte string of
`req.uri().path()`.  The S3 collaborator is a capability
`fetch : key -> S3Result`, where a successful `get_object` reply carries a
body-collection step that may itself fail (`resp.body.collect().await?`).
-/

/-- Byte list of an ASCII string literal (code points, which agree with the
UTF-8 bytes for ASCII text). -/
def strBytes (s : String) : List Nat := s.data.map Char.toNat

/-- `req.uri().path().trim_start_matches('/')` (main.rs line 100):
removes every leading `/` (byte 47). -/
def rawTrim (raw : List Nat) : List Nat := raw.dropWhile (fun b => b == 47)

/-- Value of an ASCII hex digit, `none` for any other byte. -/
def hexVal (b : Nat) : Option Nat :=
  if 48 ≤ b ∧ b ≤ 57 then some (b - 48)
  else if 65 ≤ b ∧ b ≤ 70 then some (b - 55)
  else if 97 ≤ b ∧ b ≤ 102 then some (b - 87)
  else none

/-- `percent_decode_str` (main.rs line 102): a `%` followed by two hex
digits becomes the denoted byte; a `%` not followed by two hex digits is
passed through literally and decoding continues with the next byte. -/
def percentDecode : List Nat → List Nat
  | [] => []
  | 37 :: h :: l :: rest =>
      match hexVal h, hexVal l with
      | some hv, some lv => (16 * hv + lv) :: percentDecode rest
      | _, _ => 37 :: percentDecode (h :: l :: rest)
  | b :: rest => b :: percentDecode rest

/-- A UTF-8 continuation byte (`0x80..=0xBF`). -/
def utf8Cont (b : Nat) : Bool := 128 ≤ b && b ≤ 191

/-- UTF-8 well-formedness of a byte sequence, as checked by
`Cow::decode_utf8` / `str::from_utf8` (RFC 3629: no overlong forms, no
surrogates, nothing above U+10FFFF). -/
def utf8Valid : List Nat → Bool
  | [] => true
  | b :: rest =>
    if b ≤ 127 then utf8Valid rest
    else if 194 ≤ b ∧ b ≤ 223 then
      match rest with
      | b2 :: rest2 => utf8Cont b2 && utf8Valid rest2
      | [] => false
    else if b = 224 then
      match rest with
      | b2 :: b3 :: rest3 =>
          (160 ≤ b2 && b2 ≤ 191) && utf8Cont b3 && utf8Valid rest3
      | _ => false
    else if (225 ≤ b ∧ b ≤ 236) ∨ b = 238 ∨ b = 239 then
      match rest with
      | b2 :: b3 :: rest3 => utf8Cont b2 && utf8Cont b3 && utf8Valid rest3
      | _ => false
    else if b = 237 then
      match rest with
      | b2 :: b3 :: rest3 =>
          (128 ≤ b2 && b2 ≤ 159) && utf8Cont b3 && utf8Valid rest3
      | _ => false
    else if b = 240 then
      match rest with
      | b2 :: b3 :: b4 :: rest4 =>
          (144 ≤ b2 && b2 ≤ 191) && utf8Cont b3 && utf8Cont b4 && utf8Valid rest4
      | _ => false
    else if 241 ≤ b ∧ b ≤ 243 then
      match rest with
      | b2 :: b3 :: b4 :: rest4 =>
          utf8Cont b2 && utf8Cont b3 && utf8Cont b4 && utf8Valid rest4
      | _ => false
    else if b = 244 then
      match rest with
      | b2 :: b3 :: b4 :: rest4 =>
          (128 ≤ b2 && b2 ≤ 143) && utf8Cont b3 && utf8Cont b4 && utf8Valid rest4
      | _ => false
    else false

/-- Lines 100-105: strip leading slashes, percent-decode, and keep the
result when it is valid UTF-8, otherwise fall back to the empty string
(`decode_utf8().unwrap_or_default()`). -/
def decodedPath (raw : List Nat) : List Nat :=
  let d := percentDecode (rawTrim raw)
  if utf8Valid d then d else []

/-- Lines 108-119: default-document and directory-index normalization,
with the code's exact branching (outer `||`, nested `if`). -/
def normalizePath (path : List Nat) : List Nat :=
  if path = [] ∨ path = strBytes "index.html" then strBytes "index.html"
  else if path.getLast? = some 47 ∨ (¬ 46 ∈ path ∧ path ≠ []) then
    if path.getLast? = some 47 then path ++ strBytes "index.html"
    else path ++ 47 :: strBytes "index.html"
  else path

/-- Lines 86-91: the host string is the header value when present, the
empty string when absent (`unwrap_or_default`). -/
def hostString (hostHeader : Option (List Nat)) : List Nat :=
  hostHeader.getD []

/-- Lines 94-98: `host.split('.').next().filter(|s| !s.is_empty())
.unwrap_or_default()` — the part of the host before the first `.`, or the
empty string when that part is empty. -/
def subdomainOf (host : List Nat) : List Nat :=
  let first := host.takeWhile (fun b => b != 46)
  if first = [] then [] else first

/-- Lines 121-125: the object key, `subdomain + "/" + path` unless the
subdomain is empty. -/
def resolveKey (hostHeader : Option (List Nat)) (raw : List Nat) : List Nat :=
  let subdomain := subdomainOf (hostString hostHeader)
  let path := normalizePath (decodedPath raw)
  if subdomain = [] then path else subdomain ++ 47 :: path

/-- The (tenant, key) pair a request resolves to. -/
def resolvePair (hostHeader : Option (List Nat)) (raw : List Nat) :
    List Nat × List Nat :=
  (subdomainOf (hostString hostHeader), resolveKey hostHeader raw)

/-- Resolution of a sequence of requests, in arrival order. -/
def processRequests (reqs : List (Option (List Nat) × List Nat)) :
    List (List Nat × List Nat) :=
  reqs.map (fun r => resolvePair r.1 r.2)

instance exceptDecEq {α β : Type} [DecidableEq α] [DecidableEq β] :
    DecidableEq (Except α β) := fun x y =>
  match x, y with
  | .ok a, .ok b =>
      if h : a = b then .isTrue (by rw [h])
      else .isFalse (by intro hc; cases hc; exact h rfl)
  | .error a, .error b =>
      if h : a = b then .isTrue (by rw [h])
      else .isFalse (by intro hc; cases hc; exact h rfl)
  | .ok _, .error _ => .isFalse (by intro hc; cases hc)
  | .error _, .ok _ => .isFalse (by intro hc; cases hc)

/-- Outcome of `s3_client.get_object(...).send().await` (lines 128-134):
on success the reply carries the body-collection step
`resp.body.collect().await` — which may fail — and the optional
content-type; on failure, the error's display text. -/
inductive S3Result where
  | success (collect : Except (List Nat) (List Nat))
      (contentType : Option (List Nat))
  | failure (errMsg : List Nat)
deriving DecidableEq

/-- An HTTP response as assembled by `Response::builder()`. -/
structure HttpResponse where
  status : Nat
  headers : List (List Nat × List Nat)
  body : List Nat
deriving DecidableEq

/-- Lines 80-151: `handle_request`.  Takes the fetch capability, the host
header and the raw path; returns the handler's `Result` (an `Except`: the
`?` on `resp.body.collect().await` propagates a body-read failure out of
the function) paired with the list of `eprintln!` log lines. -/
def handle_request (fetch : List Nat → S3Result)
    (hostHeader : Option (List Nat)) (raw : List Nat) :
    Except (List Nat) HttpResponse × List (List Nat) :=
  let key := resolveKey hostHeader raw
  match fetch key with
  | .success collect contentType =>
      match collect with
      | .ok data =>
          (.ok { status := 200
                 headers := [(strBytes "content-type", contentType.getD [])]
                 body := data }, [])
      | .error e => (.error e, [])
  | .failure err =>
      (.ok { status := 404, headers := [], body := strBytes "Not Found" },
       [strBytes "Error fetching from S3: " ++ err])

/-- Splitting a byte string on `.` (byte 46), modelled from the spec's
words for tenant extraction: an independent rendering of Rust's
`split('.')`, used to state the tenant claims non-circularly. -/
def splitOnDot : List Nat → List (List Nat)
  | [] => [[]]
  | b :: rest =>
      if b = 46 then [] :: splitOnDot rest
      else
        match splitOnDot rest with
        | [] => [[b]]
        | g :: gs => (b :: g) :: gs

example : rawTrim (strBytes "//about") = strBytes "about" := by decide
example : percentDecode (strBytes "foo%20bar") = strBytes "foo bar" := by decide
example : decodedPath (strBytes "/%FF") = [] := by decide
example : normalizePath (strBytes "about") = strBytes "about/index.html" := by decide
example : normalizePath (strBytes "about/") = strBytes "about/index.html" := by decide
example : normalizePath (strBytes "style.css") = strBytes "style.css" := by decide
example : resolveKey (some (strBytes "acme.example.com")) (strBytes "/../secret.txt")
    = strBytes "acme/../secret.txt" := by decide
example : resolveKey none (strBytes "/%2Ffoo") = strBytes "/foo/index.html" := by decide
example : splitOnDot (strBytes "acme.example.com")
    = [strBytes "acme", strBytes "example", strBytes "com"] := by decide

/-! ## Helper lemmas -/

theorem splitOnDot_ne_nil (s : List Nat) : splitOnDot s ≠ [] := by
  induction s with
  | nil => simp [splitOnDot]
  | cons b rest ih =>
    simp only [splitOnDot]
    by_cases hb : b = 46
    · simp [hb]
    · simp only [hb, if_false]
      cases hsp : splitOnDot rest with
      | nil => simp
      | cons g gs => simp

theorem splitOnDot_headD (s : List Nat) :
    (splitOnDot s).headD [] = s.takeWhile (fun b => b != 46) := by
  induction s with
  | nil => rfl
  | cons b rest ih =>
    by_cases hb : b = 46
    · subst hb; simp [splitOnDot, List.takeWhile]
    · simp only [splitOnDot, hb, if_false]
      cases hsp : splitOnDot rest with
      | nil => exact absurd hsp (splitOnDot_ne_nil rest)
      | cons g gs =>
        rw [hsp] at ih
        simp only [List.headD_cons] at ih
        simp [List.takeWhile_cons, hb, ← ih]

/-- The normalization of lines 108-119 restructured into the spec's
four-way priority order. -/
theorem normalizePath_eq_cases (p : List Nat) :
    normalizePath p =
      if p = [] ∨ p = strBytes "index.html" then strBytes "index.html"
      else if p.getLast? = some 47 then p ++ strBytes "index.html"
      else if ¬ 46 ∈ p then p ++ 47 :: strBytes "index.html"
      else p := by
  by_cases h1 : p = [] ∨ p = strBytes "index.html"
  · simp [normalizePath, h1]
  · by_cases h2 : p.getLast? = some 47
    · simp [normalizePath, h1, h2]
    · by_cases h3 : (46 : Nat) ∈ p
      · simp [normalizePath, h1, h2, h3]
      · have hne : p ≠ [] := fun hc => h1 (Or.inl hc)
        simp [normalizePath, h1, h2, h3, hne]

theorem normalizePath_head (p : List Nat) :
    (normalizePath p).head? = some 105 ∨ (normalizePath p).head? = p.head? := by
  rw [normalizePath_eq_cases]
  by_cases h1 : p = [] ∨ p = strBytes "index.html"
  · rw [if_pos h1]; left; decide
  · rw [if_neg h1]
    rcases p with _ | ⟨a, t⟩
    · exact absurd (Or.inl rfl) h1
    · right
      split
      · simp
      · split
        · simp
        · rfl

theorem normalizePath_ne_nil (p : List Nat) : normalizePath p ≠ [] := by
  intro hc
  rcases p with _ | ⟨a, t⟩
  · exact absurd hc (by decide)
  · rcases normalizePath_head (a :: t) with h | h <;> rw [hc] at h <;> simp at h

theorem rawTrim_shape (raw : List Nat) :
    raw = List.replicate (raw.length - (rawTrim raw).length) 47 ++ rawTrim raw ∧
    (rawTrim raw).head? ≠ some 47 := by
  induction raw with
  | nil => exact ⟨rfl, by simp [rawTrim]⟩
  | cons b rest ih =>
    by_cases hb : b = 47
    · subst hb
      have htrim : rawTrim (47 :: rest) = rawTrim rest := by
        simp [rawTrim, List.dropWhile_cons]
      have hle : (rawTrim rest).length ≤ rest.length :=
        (List.dropWhile_suffix _).length_le
      refine ⟨?_, htrim ▸ ih.2⟩
      rw [htrim]
      have hsub : (47 :: rest).length - (rawTrim rest).length
          = (rest.length - (rawTrim rest).length) + 1 := by
        simp only [List.length_cons]
        omega
      rw [hsub, List.replicate_succ, List.cons_append]
      exact congrArg (47 :: ·) ih.1
    · have htrim : rawTrim (b :: rest) = b :: rest := by
        simp [rawTrim, List.dropWhile_cons, hb]
      refine ⟨?_, ?_⟩
      · rw [htrim]; simp
      · rw [htrim]; simp [hb]

/-! ## Claim theorems -/

/-- C1: after tenant extraction and percent-decoding, the decoded path is
normalized by priority: empty or exactly `"index.html"` gives
`"index.html"`; else a path ending in `/` gets `"index.html"` appended;
else a path with no `.` anywhere gets `"/index.html"` appended; otherwise
the path is unchanged.  In particular `"about"` becomes
`"about/index.html"`, `"about/"` becomes `"about/index.html"`, and
`"style.css"` is untouched. -/
theorem C1_path_normalization :
    (∀ p : List Nat,
      normalizePath p =
        if p = [] ∨ p = strBytes "index.html" then strBytes "index.html"
        else if p.getLast? = some 47 then p ++ strBytes "index.html"
        else if ¬ 46 ∈ p then p ++ 47 :: strBytes "index.html"
        else p) ∧
    normalizePath (strBytes "about") = strBytes "about/index.html" ∧
    normalizePath (strBytes "about/") = strBytes "about/index.html" ∧
    normalizePath (strBytes "style.css") = strBytes "style.css" :=
  ⟨normalizePath_eq_cases, by decide, by decide, by decide⟩

/-- C6 counterexample: the code's `trim_start_matches('/')` removes every
leading slash, so for the raw path `"//about"` the string handed to
percent-decoding is `"about"`, whose first byte is `'a'` (97), not `'/'`
(47) as the claim asserts. -/
theorem C6_counterexample :
    rawTrim (strBytes "//about") = strBytes "about" ∧
    (rawTrim (strBytes "//about")).head? = some 97 := by decide

/-- C6 (amended): path decoding strips all leading `/` characters before
percent-decoding — every raw path is some run of slashes followed by the
trimmed remainder, and the trimmed remainder never begins with `/`. -/
theorem C6_trim_all_leading_slashes :
    ∀ raw : List Nat,
      raw = List.replicate (raw.length - (rawTrim raw).length) 47 ++ rawTrim raw ∧
      (rawTrim raw).head? ≠ some 47 :=
  rawTrim_shape

/-- C6 witness: the amended statement at the concrete raw path `"//about"`. -/
theorem C6_trim_witness :
    strBytes "//about"
      = List.replicate
          ((strBytes "//about").length - (rawTrim (strBytes "//about")).length) 47
        ++ rawTrim (strBytes "//about") :=
  (C6_trim_all_leading_slashes (strBytes "//about")).1

/-- C7: percent-decoding happens before normalization — `"foo%20bar"`
normalizes to `"foo bar/index.html"` — and a decoded byte sequence that is
not valid UTF-8 is replaced by the empty string, so the request resolves
as if the path were empty (normalized path `"index.html"`). -/
theorem C7_decode_before_normalize :
    normalizePath (decodedPath (strBytes "/foo%20bar")) = strBytes "foo bar/index.html" ∧
    ∀ raw : List Nat,
      utf8Valid (percentDecode (rawTrim raw)) = false →
      decodedPath raw = [] ∧
      normalizePath (decodedPath raw) = strBytes "index.html" := by
  refine ⟨by decide, ?_⟩
  intro raw h
  have hd : decodedPath raw = [] := by simp [decodedPath, h]
  exact ⟨hd, by rw [hd]; decide⟩

/-- C7 witness: the raw path `"/%FF"` percent-decodes to the single byte
255, which is not valid UTF-8, and indeed resolves to `"index.html"`. -/
theorem C7_decode_witness :
    utf8Valid (percentDecode (rawTrim (strBytes "/%FF"))) = false ∧
    normalizePath (decodedPath (strBytes "/%FF")) = strBytes "index.html" :=
  ⟨by decide, (C7_decode_before_normalize.2 (strBytes "/%FF") (by decide)).2⟩

/-- C9: no dot-segment removal or sanitization is performed: host
`"acme.example.com"` with raw path `"/../secret.txt"` resolves to the key
`"acme/../secret.txt"`, which is `"acme/"` followed by a `".."` segment
escaping the tenant prefix. -/
theorem C9_no_dot_segment_removal :
    resolveKey (some (strBytes "acme.example.com")) (strBytes "/../secret.txt")
      = strBytes "acme/../secret.txt" ∧
    resolveKey (some (strBytes "acme.example.com")) (strBytes "/../secret.txt")
      = strBytes "acme/" ++ strBytes ".." ++ strBytes "/secret.txt" := by decide

/-- C5: the tenant is the first dot-separated label of the host header
(`splitOnDot` renders the spec's "split on `.`" independently of the
code); when the header is absent, empty, or its first label is empty the
tenant is empty and the key is the bare normalized path, otherwise the
key is `tenant + "/" + normalized path`. -/
theorem C5_tenant_and_key :
    ∀ (hh : Option (List Nat)) (raw : List Nat),
      ((hh = none ∨ hostString hh = [] ∨ (splitOnDot (hostString hh)).headD [] = []) →
        subdomainOf (hostString hh) = [] ∧
        resolveKey hh raw = normalizePath (decodedPath raw)) ∧
      ((splitOnDot (hostString hh)).headD [] ≠ [] →
        subdomainOf (hostString hh) = (splitOnDot (hostString hh)).headD [] ∧
        resolveKey hh raw
          = (splitOnDot (hostString hh)).headD [] ++ 47 :: normalizePath (decodedPath raw)) := by
  intro hh raw
  constructor
  · intro hcase
    have hsub : subdomainOf (hostString hh) = [] := by
      rcases hcase with hnone | hnil | hlab
      · subst hnone; rfl
      · simp [subdomainOf, hnil]
      · rw [splitOnDot_headD] at hlab
        simp [subdomainOf, hlab]
    exact ⟨hsub, by simp [resolveKey, hsub]⟩
  · intro hlab
    rw [splitOnDot_headD] at hlab ⊢
    have hsub : subdomainOf (hostString hh)
        = (hostString hh).takeWhile (fun b => b != 46) := by
      simp [subdomainOf, hlab]
    refine ⟨hsub, ?_⟩
    rw [resolveKey, hsub]
    simp [hlab]

/-- C5 witness: host `"acme.example.com"` with raw path `"/"` gives tenant
`"acme"` and key `"acme/index.html"`. -/
theorem C5_tenant_witness :
    subdomainOf (hostString (some (strBytes "acme.example.com"))) = strBytes "acme" ∧
    resolveKey (some (strBytes "acme.example.com")) (strBytes "/")
      = strBytes "acme/index.html" := by
  have h := (C5_tenant_and_key (some (strBytes "acme.example.com")) (strBytes "/")).2
    (by decide)
  refine ⟨?_, ?_⟩
  · rw [h.1]; decide
  · rw [h.2]; decide

/-- C8: key resolution is a pure function of (host header, raw path): the
same request resolves to the same (tenant, key) pair after any two prior
request histories. -/
theorem C8_resolution_pure :
    ∀ (prior1 prior2 : List (Option (List Nat) × List Nat))
      (hh : Option (List Nat)) (raw : List Nat),
      (processRequests (prior1 ++ [(hh, raw)])).getLast?
        = (processRequests (prior2 ++ [(hh, raw)])).getLast? ∧
      (processRequests (prior1 ++ [(hh, raw)])).getLast? = some (resolvePair hh raw) := by
  intro prior1 prior2 hh raw
  have key : ∀ l : List (Option (List Nat) × List Nat),
      (processRequests (l ++ [(hh, raw)])).getLast? = some (resolvePair hh raw) := by
    intro l
    rw [processRequests, List.map_append]
    exact List.getLast?_concat _
  exact ⟨by rw [key, key], key prior1⟩

/-- C2 counterexample: when the storage reply succeeds but collecting the
response body fails, the `?` on `resp.body.collect().await` makes
`handle_request` return `Err` — no HTTP response at all — refuting "every
code path yields some valid response". -/
theorem C2_counterexample :
    (handle_request
        (fun _ => S3Result.success (Except.error (strBytes "body stream failed")) none)
        none (strBytes "/")).fst
      = Except.error (strBytes "body stream failed") := rfl

/-- C2 (amended): every code path either yields a response whose status is
200 or 404, or — exactly when the storage fetch succeeded but reading the
response body failed — propagates that error and yields no response. -/
theorem C2_statuses_or_body_error :
    ∀ (fetch : List Nat → S3Result) (hh : Option (List Nat)) (raw : List Nat),
      (∀ r, (handle_request fetch hh raw).fst = Except.ok r →
        r.status = 200 ∨ r.status = 404) ∧
      (∀ e, (handle_request fetch hh raw).fst = Except.error e →
        ∃ ct, fetch (resolveKey hh raw) = S3Result.success (Except.error e) ct) := by
  intro fetch hh raw
  cases hf : fetch (resolveKey hh raw) with
  | success collect ct =>
      cases collect with
      | ok data =>
          constructor
          · intro r hr
            simp only [handle_request, hf] at hr
            rw [← Except.ok.inj hr]
            exact Or.inl rfl
          · intro e he
            simp [handle_request, hf] at he
      | error e0 =>
          constructor
          · intro r hr
            simp [handle_request, hf] at hr
          · intro e he
            simp only [handle_request, hf] at he
            exact ⟨ct, by rw [← Except.error.inj he]⟩
  | failure err =>
      constructor
      · intro r hr
        simp only [handle_request, hf] at hr
        rw [← Except.ok.inj hr]
        exact Or.inr rfl
      · intro e he
        simp [handle_request, hf] at he

/-- C2 witness: the amended statement applied at a concrete failing fetch:
the produced 404 response has status 200 or 404. -/
theorem C2_statuses_witness :
    ({ status := 404, headers := [], body := strBytes "Not Found" } : HttpResponse).status
        = 200 ∨
    ({ status := 404, headers := [], body := strBytes "Not Found" } : HttpResponse).status
        = 404 :=
  (C2_statuses_or_body_error (fun _ => S3Result.failure (strBytes "x")) none
      (strBytes "/")).1 _ (by decide)

/-- C3: any object-fetch error yields HTTP 404 with the non-empty
plain-text body `"Not Found"`, the underlying error detail is written to
the log, and the response does not depend on the error detail, so the
client cannot distinguish a missing object from a backend failure. -/
theorem C3_fetch_error_404 :
    ∀ (fetch : List Nat → S3Result) (hh : Option (List Nat)) (raw e : List Nat),
      fetch (resolveKey hh raw) = S3Result.failure e →
      (handle_request fetch hh raw).fst
          = Except.ok { status := 404, headers := [], body := strBytes "Not Found" } ∧
      strBytes "Not Found" ≠ [] ∧
      (handle_request fetch hh raw).snd = [strBytes "Error fetching from S3: " ++ e] ∧
      ∀ (fetch2 : List Nat → S3Result) (e2 : List Nat),
        fetch2 (resolveKey hh raw) = S3Result.failure e2 →
        (handle_request fetch2 hh raw).fst = (handle_request fetch hh raw).fst := by
  intro fetch hh raw e hf
  refine ⟨by simp [handle_request, hf], by decide, by simp [handle_request, hf], ?_⟩
  intro fetch2 e2 hf2
  simp [handle_request, hf, hf2]

/-- C3 witness: a concrete failing fetch (`"no such key"`) on the
no-tenant root request produces the 404 response and the log line. -/
theorem C3_fetch_error_witness :
    (handle_request (fun _ => S3Result.failure (strBytes "no such key")) none
        (strBytes "/")).fst
      = Except.ok { status := 404, headers := [], body := strBytes "Not Found" } ∧
    (handle_request (fun _ => S3Result.failure (strBytes "no such key")) none
        (strBytes "/")).snd
      = [strBytes "Error fetching from S3: " ++ strBytes "no such key"] := by
  have h := C3_fetch_error_404 (fun _ => S3Result.failure (strBytes "no such key"))
    none (strBytes "/") (strBytes "no such key") rfl
  exact ⟨h.1, h.2.2.1⟩

/-- C4: when the fetch succeeds (body collected), the handler returns
exactly status 200, the single header `content-type` set to the returned
content-type (the empty string when none was supplied), a body
byte-for-byte equal to the fetched bytes, and no log output. -/
theorem C4_success_200 :
    ∀ (fetch : List Nat → S3Result) (hh : Option (List Nat)) (raw data : List Nat)
      (ct : Option (List Nat)),
      fetch (resolveKey hh raw) = S3Result.success (Except.ok data) ct →
      handle_request fetch hh raw
        = (Except.ok { status := 200
                       headers := [(strBytes "content-type", ct.getD [])]
                       body := data }, []) := by
  intro fetch hh raw data ct hf
  simp [handle_request, hf]

/-- C4 witness: a successful fetch with no supplied content-type yields
status 200 with the `content-type` header present and empty, and the
exact body bytes. -/
theorem C4_success_witness :
    handle_request
        (fun _ => S3Result.success (Except.ok (strBytes "hello")) none)
        (some (strBytes "acme.example.com")) (strBytes "/")
      = (Except.ok { status := 200
                     headers := [(strBytes "content-type", [])]
                     body := strBytes "hello" }, []) :=
  C4_success_200 _ _ _ _ none rfl

/-- C10 counterexample: the raw path `"/%2Ffoo"` percent-decodes (after
slash trimming) to `"/foo"`, so the resolved key `"/foo/index.html"`
begins with `/` (byte 47), refuting "the resolved key never begins with
'/'". -/
theorem C10_counterexample :
    resolveKey none (strBytes "/%2Ffoo") = strBytes "/foo/index.html" ∧
    (resolveKey none (strBytes "/%2Ffoo")).head? = some 47 := by decide

/-- C10 (amended): the resolved key is always non-empty; when the tenant
is empty the key can begin with `/` only if the percent-decoded path does
(reachable only through a percent-encoded slash, literal leading slashes
being stripped); when the tenant is non-empty the key begins with the
tenant's first byte. -/
theorem C10_key_nonempty_shape :
    ∀ (hh : Option (List Nat)) (raw : List Nat),
      resolveKey hh raw ≠ [] ∧
      (subdomainOf (hostString hh) = [] →
        (decodedPath raw).head? ≠ some 47 →
        (resolveKey hh raw).head? ≠ some 47) ∧
      (subdomainOf (hostString hh) ≠ [] →
        (resolveKey hh raw).head? = (subdomainOf (hostString hh)).head?) := by
  intro hh raw
  refine ⟨?_, ?_, ?_⟩
  · intro hc
    rw [resolveKey] at hc
    split at hc
    · exact normalizePath_ne_nil _ hc
    · exact absurd (List.append_eq_nil.mp hc).2 (by simp)
  · intro hsub hdec
    have hkey : resolveKey hh raw = normalizePath (decodedPath raw) := by
      simp [resolveKey, hsub]
    rw [hkey]
    rcases normalizePath_head (decodedPath raw) with h | h <;> rw [h]
    · intro hc
      exact absurd (Option.some.inj hc) (by decide)
    · exact hdec
  · intro hsub
    rcases hs : subdomainOf (hostString hh) with _ | ⟨a, t⟩
    · exact absurd hs hsub
    · simp [resolveKey, hs]

/-- C10 witness: the amended statement at the no-tenant request for
`"/about"`: the key is non-empty and does not begin with `/`. -/
theorem C10_key_witness :
    resolveKey none (strBytes "/about") ≠ [] ∧
    (resolveKey none (strBytes "/about")).head? ≠ some 47 := by
  have h := C10_key_nonempty_shape none (strBytes "/about")
  exact ⟨h.1, h.2.1 (by decide) (by decide)⟩
